import Mathlib

/-!
Verification of the customs KPI / anomaly-detection analytics.

The definitions below are a shallow embedding of the analytic core of
`kpi_calculator.py` and `customs-anomaly-detector/detect_anomalies.py`:

* SQL / pandas numeric columns are modelled as exact rationals (`ℚ`);
* `ROUND(x, d)` (Oracle) and `Series.round(d)` (pandas) are modelled by
  `roundTo d`, round-half-up to `d` decimal places — no value relevant to a
  statement below sits on a rounding tie, so the tie-breaking convention is
  immaterial;
* a SQL `GROUP BY` group or a pandas data frame is a `List` of row
  structures;
* a pandas value that would be `NaN`/`inf` (division by a zero grand total)
  is modelled as `none : Option ℚ`;
* a Python exception (the `KeyError` raised by `calc_hhi_by_dimension` when
  the `share` column was never created) is modelled as `Except.error`.
-/

namespace CustomsKpi

/-- Round-half-up to `d` decimal places, the model of Oracle `ROUND(x, d)`
and pandas `Series.round(d)` used throughout this file. -/
def roundTo (d : ℕ) (q : ℚ) : ℚ :=
  (Int.floor (q * 10 ^ d + 1 / 2) : ℚ) / 10 ^ d

/-- Rounding to one decimal place (`ROUND(x, 1)`, `.round(1)`). -/
def round1 (q : ℚ) : ℚ := roundTo 1 q

/-- Rounding to two decimal places (`ROUND(x, 2)`, `.round(2)`). -/
def round2 (q : ℚ) : ℚ := roundTo 2 q

/-- Embedding of `KPICalculator._get_status` (kpi_calculator.py, lines
686-701): threshold a KPI `actual` value against `benchmark` and `target`,
where any `direction` other than the exact string `"higher"` falls into the
lower-is-better branch. -/
def getStatus (actual benchmark target : ℚ) (direction : String) : String :=
  if direction = "higher" then
    if actual ≥ target then "Excellent"
    else if actual ≥ benchmark then "Good"
    else "Needs Improvement"
  else
    if actual ≤ target then "Excellent"
    else if actual ≤ benchmark then "Good"
    else "Needs Improvement"

/-- One row of the `CLRI_TANSAD_UT_PRC_M` table as the analytics read it:
declared and assessed HS code, declared and assessed unit USD values, and
declared and assessed invoice USD amounts. -/
structure Declaration where
  dcld_hs_cd : String
  assd_hs_cd : String
  dcld_ut_usd_val : ℚ
  assd_ut_usd_val : ℚ
  dcld_invc_usd_amt : ℚ
  assd_invc_usd_amt : ℚ

/-- The undervaluation test used by every SQL `CASE` expression of the
analytics: `ASSD_UT_USD_VAL > DCLD_UT_USD_VAL * threshold AND
DCLD_UT_USD_VAL > 0`. -/
def isUnderval (threshold : ℚ) (d : Declaration) : Bool :=
  decide (d.dcld_ut_usd_val * threshold < d.assd_ut_usd_val ∧ 0 < d.dcld_ut_usd_val)

/-- The HS-change test `DCLD_HS_CD != ASSD_HS_CD`. -/
def hsChanged (d : Declaration) : Bool :=
  decide (d.dcld_hs_cd ≠ d.assd_hs_cd)

/-- One output row of `calc_undervaluation_stats` (kpi_calculator.py, lines
365-389). -/
structure UndervalRow where
  total_count : ℕ
  underval_count : ℕ
  underval_rate : ℚ
  estimated_loss_usd : ℚ

/-- Embedding of the per-period aggregation of `calc_undervaluation_stats`:
`decls` is the `GROUP BY TANSAD_YY` group of one period (hence nonempty in
the SQL semantics). -/
def calc_undervaluation_stats (threshold : ℚ) (decls : List Declaration) :
    UndervalRow where
  total_count := decls.length
  underval_count := decls.countP (isUnderval threshold)
  underval_rate :=
    round2 ((decls.countP (isUnderval threshold) : ℚ) * 100 / decls.length)
  estimated_loss_usd :=
    (decls.map (fun d =>
      if isUnderval threshold d then d.assd_invc_usd_amt - d.dcld_invc_usd_amt
      else 0)).sum

/-- Aggregate columns of one HS4-by-country group, as produced by the
`GROUP BY SUBSTR(ASSD_HS_CD, 1, 4), ORIG_CNTY_CD` of both risk queries. -/
structure RiskGroup where
  total_count : ℕ
  underval_count : ℕ
  hs_change_count : ℕ
  total_value : ℚ

/-- Aggregation of one HS4-by-country group from its declarations, the
common `base` / `risk_data` CTE of `calc_risk_score_by_hs_country`
(kpi_calculator.py, lines 408-449, threshold 1.3) and
`calculate_risk_score` (detect_anomalies.py, lines 177-223, threshold
1.5). -/
def mkRiskGroup (threshold : ℚ) (decls : List Declaration) : RiskGroup where
  total_count := decls.length
  underval_count := decls.countP (isUnderval threshold)
  hs_change_count := decls.countP hsChanged
  total_value := (decls.map (·.assd_invc_usd_amt)).sum

/-- The tiered volume bonus of `calc_risk_score_by_hs_country`:
`CASE WHEN total_value > 100000000 THEN 10 WHEN total_value > 10000000
THEN 5 ELSE 1 END`. -/
def volumeBonus (total_value : ℚ) : ℚ :=
  if total_value > 100000000 then 10
  else if total_value > 10000000 then 5
  else 1

/-- The composite risk score of `calculate_risk_score`
(detect_anomalies.py, line 200): no volume bonus. -/
def risk_score_anomaly (g : RiskGroup) : ℚ :=
  round1 ((g.underval_count : ℚ) * 3 / g.total_count * 100 +
    (g.hs_change_count : ℚ) * 2 / g.total_count * 100)

/-- The composite risk score of `calc_risk_score_by_hs_country`
(kpi_calculator.py, lines 435-441): the same weighted rates plus the
tiered volume bonus, rounded as a whole. -/
def risk_score_kpi (g : RiskGroup) : ℚ :=
  round1 ((g.underval_count : ℚ) * 3 / g.total_count * 100 +
    (g.hs_change_count : ℚ) * 2 / g.total_count * 100 +
    volumeBonus g.total_value)

/-- Semantics of `pd.cut(s, bins=[-inf, e1, ..., ek, inf], labels=[l0, ...,
lk], right=True)` for a non-NaN scalar `s`: the first label whose
right-closed upper edge is not exceeded; the final label catches everything
above the last finite edge. -/
def cutGrade : List ℚ → List String → ℚ → Option String
  | [], [l], _ => some l
  | e :: es, l :: ls, s => if s ≤ e then some l else cutGrade es ls s
  | _, _, _ => none

/-- Embedding of the `RISK_GRADE` column of `calculate_risk_score`
(detect_anomalies.py, lines 216-220): `pd.cut` of the risk score over bins
`[-inf, 30, 50, 80, inf]` with labels `NORMAL`, `LOW`, `MEDIUM`, `HIGH`. -/
def riskGrade (s : ℚ) : Option String :=
  cutGrade [30, 50, 80] ["NORMAL", "LOW", "MEDIUM", "HIGH"] s

/-- Statement of claim C9's banding, written exactly as the claim reads it:
strict upper bounds, `HIGH` from 80 upward. -/
def riskGradeClaim (s : ℚ) : String :=
  if s < 30 then "NORMAL"
  else if s < 50 then "LOW"
  else if s < 80 then "MEDIUM"
  else "HIGH"

/-- One row of `calc_revenue_by_period` as `calc_yoy_growth` consumes it:
the period key (modelled as a number, e.g. 2023), the declaration count and
the period's total tax. -/
structure RevenueRow where
  period : ℕ
  declaration_count : ℕ
  total_tax : ℚ

/-- The ascending-period order used by `df.sort_values('period')`. -/
def periodLe (a b : RevenueRow) : Prop := a.period ≤ b.period

instance : DecidableRel periodLe := fun a b =>
  inferInstanceAs (Decidable (a.period ≤ b.period))

instance : IsTotal RevenueRow periodLe :=
  ⟨fun a b => Nat.le_total a.period b.period⟩

instance : IsTrans RevenueRow periodLe :=
  ⟨fun _ _ _ hab hbc => Nat.le_trans hab hbc⟩

/-- The re-sort of `calc_yoy_growth`: ascending by period, whatever order
the query boundary delivered (it delivers descending). -/
def sortPeriod (rows : List RevenueRow) : List RevenueRow :=
  rows.insertionSort periodLe

/-- Embedding of `calc_yoy_growth` (kpi_calculator.py, lines 332-340):
re-sort ascending by period, shift by one, emit for every row except the
first the row together with its tax growth and count growth percentages
(both rounded to 1 decimal); `dropna` removes exactly the first row, whose
shifted predecessor is `NaN`. -/
def calc_yoy_growth (rows : List RevenueRow) : List (RevenueRow × ℚ × ℚ) :=
  ((sortPeriod rows).zip (sortPeriod rows).tail).map fun pc =>
    (pc.2,
     round1 ((pc.2.total_tax - pc.1.total_tax) / pc.1.total_tax * 100),
     round1 (((pc.2.declaration_count : ℚ) - (pc.1.declaration_count : ℚ)) /
       (pc.1.declaration_count : ℚ) * 100))

/-- One category aggregate (`SELECT category, SUM(...) as value GROUP BY
category`) consumed by `calc_hhi_by_dimension` and
`calc_pareto_analysis`. -/
structure Cat where
  category : String
  value : ℚ

/-- The descending-value order of `ORDER BY value DESC` / `nlargest`. -/
def valueGe (a b : Cat) : Prop := b.value ≤ a.value

instance : DecidableRel valueGe := fun a b =>
  inferInstanceAs (Decidable (b.value ≤ a.value))

instance : IsTotal Cat valueGe := ⟨fun a b => le_total b.value a.value⟩

instance : IsTrans Cat valueGe := ⟨fun _ _ _ hab hbc => le_trans hbc hab⟩

/-- Sorting categories descending by value. -/
def sortByValueDesc (cats : List Cat) : List Cat :=
  cats.insertionSort valueGe

/-- The grand total `df['value'].sum()`. -/
def grandTotal (cats : List Cat) : ℚ := (cats.map (·.value)).sum

/-- The HHI value computed by `calc_hhi_by_dimension` (kpi_calculator.py,
lines 482-497): `Σ (value/total)² × 10000` when the grand total is
positive, `0` otherwise (the guarded branch). -/
def hhiRaw (cats : List Cat) : ℚ :=
  if 0 < grandTotal cats then
    ((cats.map (fun c => (c.value / grandTotal cats) ^ 2)).sum) * 10000
  else 0

/-- The concentration label of `calc_hhi_by_dimension` (lines 491-497),
computed from the unrounded HHI. -/
def concentrationLevel (hhi : ℚ) : String :=
  if hhi < 1000 then "Low (Competitive)"
  else if hhi < 1800 then "Moderate"
  else "High (Concentrated)"

/-- The result dictionary of `calc_hhi_by_dimension`. -/
structure HhiResult where
  hhi : ℚ
  concentration_level : String
  top_5_share : ℚ
  total_categories : ℕ

/-- Embedding of `calc_hhi_by_dimension` (kpi_calculator.py, lines
453-505). When the grand total is not positive the `share` column is never
created, and the unconditional `df.nlargest(5, 'value')['share']` in the
result dictionary raises a `KeyError` — modelled as `Except.error`. -/
def calc_hhi_by_dimension (cats : List Cat) : Except String HhiResult :=
  if 0 < grandTotal cats then
    Except.ok
      { hhi := roundTo 0 (hhiRaw cats)
        concentration_level := concentrationLevel (hhiRaw cats)
        top_5_share :=
          round1 ((((sortByValueDesc cats).take 5).map
            (fun c => c.value / grandTotal cats)).sum * 100)
        total_categories := cats.length }
  else Except.error "KeyError: share"

/-- One output row of `calc_pareto_analysis` (kpi_calculator.py, lines
507-553). `share_pct` and `cumulative_pct` are `none` when the pandas
computation would produce `NaN` (division of a zero value by a zero grand
total). -/
structure ParetoRow where
  category : String
  value : ℚ
  share_pct : Option ℚ
  cumulative_pct : Option ℚ
  rank : ℕ
  pareto_zone : String

/-- The zone lambda of `calc_pareto_analysis` (lines 549-551) on a non-NaN
cumulative percentage. -/
def zoneOf (c : ℚ) : String :=
  if c ≤ 80 then "A (Top 80%)"
  else if c ≤ 95 then "B (80-95%)"
  else "C (Bottom 5%)"

/-- The row-building loop of `calc_pareto_analysis` for a nonzero grand
total: the share is rounded to 2 decimals, the cumulative column is the
elementwise `round(2)` of the running sum of the already-rounded shares,
ranks count up from `rank`, and the zone is the lambda applied to the
cumulative value. -/
def paretoRows (total : ℚ) : ℚ → ℕ → List Cat → List ParetoRow
  | _, _, [] => []
  | acc, rank, c :: cs =>
    ⟨c.category, c.value,
      some (round2 (c.value / total * 100)),
      some (round2 (acc + round2 (c.value / total * 100))),
      rank,
      zoneOf (round2 (acc + round2 (c.value / total * 100)))⟩ ::
      paretoRows total (acc + round2 (c.value / total * 100)) (rank + 1) cs

/-- The rows `calc_pareto_analysis` produces when the grand total is zero
and every value is zero: `0/0` is `NaN` in pandas, `NaN.round(2)` and the
cumulative sum stay `NaN`, and both comparisons of the zone lambda are
false on `NaN`, so the zone is `C (Bottom 5%)`. -/
def paretoRowsNaN : ℕ → List Cat → List ParetoRow
  | _, [] => []
  | rank, c :: cs =>
    ⟨c.category, c.value, none, none, rank, "C (Bottom 5%)"⟩ ::
      paretoRowsNaN (rank + 1) cs

/-- Embedding of `calc_pareto_analysis` (kpi_calculator.py, lines
507-553): the SQL delivers the categories sorted descending by value; the
function has no guard on the grand total, so a zero total yields `NaN`
share and cumulative columns. -/
def calc_pareto_analysis (cats : List Cat) : List ParetoRow :=
  if grandTotal (sortByValueDesc cats) = 0 then
    paretoRowsNaN 1 (sortByValueDesc cats)
  else
    paretoRows (grandTotal (sortByValueDesc cats)) 0 1 (sortByValueDesc cats)

/-- The cumulative column exactly as claim C4 words it: the running sum of
the already-rounded per-row shares, with no re-rounding of the running
sum. -/
def paretoRowsSpec (total : ℚ) : ℚ → ℕ → List Cat → List ParetoRow
  | _, _, [] => []
  | acc, rank, c :: cs =>
    ⟨c.category, c.value,
      some (round2 (c.value / total * 100)),
      some (acc + round2 (c.value / total * 100)),
      rank,
      zoneOf (acc + round2 (c.value / total * 100))⟩ ::
      paretoRowsSpec total (acc + round2 (c.value / total * 100)) (rank + 1) cs

/-- Running sums of a list of summands, starting from `acc`. -/
def runningSums (acc : ℚ) : List ℚ → List ℚ
  | [] => []
  | x :: xs => (acc + x) :: runningSums (acc + x) xs

theorem roundTo_eq_self (d : ℕ) (q : ℚ) (n : ℤ) (h : q * 10 ^ d = (n : ℚ)) :
    roundTo d q = q := by
  have hpow : (0 : ℚ) < 10 ^ d := by positivity
  have hfl : Int.floor (q * 10 ^ d + 1 / 2) = n := by
    rw [h]
    rw [Int.floor_int_add]
    norm_num
  rw [roundTo, hfl]
  field_simp
  linarith [h]

theorem roundTo_nonneg (d : ℕ) (q : ℚ) (h : 0 ≤ q) : 0 ≤ roundTo d q := by
  have hpow : (0 : ℚ) < 10 ^ d := by positivity
  have h1 : (0 : ℚ) ≤ q * 10 ^ d + 1 / 2 := by positivity
  have h2 : (0 : ℤ) ≤ Int.floor (q * 10 ^ d + 1 / 2) := by
    rw [Int.le_floor]; exact_mod_cast h1
  rw [roundTo]
  apply div_nonneg _ (le_of_lt hpow)
  exact_mod_cast h2

theorem roundTo_le_bound (d : ℕ) (q : ℚ) (m : ℤ) (h : q * 10 ^ d ≤ (m : ℚ)) :
    roundTo d q ≤ (m : ℚ) / 10 ^ d := by
  have hpow : (0 : ℚ) < 10 ^ d := by positivity
  have h1 : Int.floor (q * 10 ^ d + 1 / 2) ≤ Int.floor ((m : ℚ) + 1 / 2) :=
    Int.floor_le_floor (by linarith)
  have h2 : Int.floor ((m : ℚ) + 1 / 2) = m := by
    rw [Int.floor_int_add]; norm_num
  rw [roundTo]
  gcongr
  exact_mod_cast h1.trans_eq h2

theorem roundTo_mul_pow (d : ℕ) (q : ℚ) :
    roundTo d q * 10 ^ d = ((Int.floor (q * 10 ^ d + 1 / 2) : ℤ) : ℚ) := by
  have hpow : (10 : ℚ) ^ d ≠ 0 := by positivity
  rw [roundTo, div_mul_cancel₀ _ hpow]

/-- C5: with direction `higher` the status is `Excellent` iff actual ≥
target, `Good` iff actual is below target but at least benchmark, otherwise
`Needs Improvement`; with direction `lower` the mirrored comparisons hold;
and on benchmark 30 / target 50 the actuals 55, 35, 10 produce `Excellent`,
`Good`, `Needs Improvement` respectively. -/
theorem getStatus_spec (actual benchmark target : ℚ) :
    (getStatus actual benchmark target "higher" = "Excellent" ↔ actual ≥ target) ∧
    (getStatus actual benchmark target "higher" = "Good" ↔
      (¬ actual ≥ target ∧ actual ≥ benchmark)) ∧
    (getStatus actual benchmark target "higher" = "Needs Improvement" ↔
      (¬ actual ≥ target ∧ ¬ actual ≥ benchmark)) ∧
    (getStatus actual benchmark target "lower" = "Excellent" ↔ actual ≤ target) ∧
    (getStatus actual benchmark target "lower" = "Good" ↔
      (¬ actual ≤ target ∧ actual ≤ benchmark)) ∧
    (getStatus actual benchmark target "lower" = "Needs Improvement" ↔
      (¬ actual ≤ target ∧ ¬ actual ≤ benchmark)) ∧
    getStatus 55 30 50 "higher" = "Excellent" ∧
    getStatus 35 30 50 "higher" = "Good" ∧
    getStatus 10 30 50 "higher" = "Needs Improvement" := by
  unfold getStatus
  refine ⟨?_, ?_, ?_, ?_, ?_, ?_, by norm_num, by norm_num, by norm_num⟩ <;>
    split_ifs <;> simp_all

/-- C10: `_get_status` is total over its direction argument: it always
returns one of the three labels, and every direction string other than
exactly `"higher"` (misspellings included) is classified by the
lower-is-better rules. -/
theorem getStatus_total (actual benchmark target : ℚ) (direction : String) :
    (getStatus actual benchmark target direction = "Excellent" ∨
     getStatus actual benchmark target direction = "Good" ∨
     getStatus actual benchmark target direction = "Needs Improvement") ∧
    (direction ≠ "higher" →
      getStatus actual benchmark target direction =
        getStatus actual benchmark target "lower") := by
  constructor
  · unfold getStatus
    split_ifs <;> simp
  · intro hdir
    unfold getStatus
    rw [if_neg hdir, if_neg (by decide : ¬ ("lower" : String) = "higher")]

/-- Witness for C10: the misspelled direction string `"hgiher"` is handled
and classified exactly as `"lower"` would be. -/
theorem getStatus_total_witness :
    ("hgiher" : String) ≠ "higher" ∧
    getStatus 10 20 30 "hgiher" = getStatus 10 20 30 "lower" :=
  ⟨by decide, (getStatus_total 10 20 30 "hgiher").2 (by decide)⟩

/-- C6: in every per-period undervaluation row, a declaration counts as
undervalued iff its declared unit value is positive and its assessed unit
value exceeds declared unit value times the threshold; `underval_count`
never exceeds `total_count`, and `underval_rate` lies in `[0, 100]`. -/
theorem underval_stats_invariant (threshold : ℚ) (decls : List Declaration)
    (hne : decls ≠ []) :
    (∀ d, isUnderval threshold d = true ↔
      (0 < d.dcld_ut_usd_val ∧ d.dcld_ut_usd_val * threshold < d.assd_ut_usd_val)) ∧
    (calc_undervaluation_stats threshold decls).underval_count ≤
      (calc_undervaluation_stats threshold decls).total_count ∧
    0 ≤ (calc_undervaluation_stats threshold decls).underval_rate ∧
    (calc_undervaluation_stats threshold decls).underval_rate ≤ 100 := by
  have hlen : 0 < decls.length := List.length_pos.mpr hne
  have hlenq : (0 : ℚ) < (decls.length : ℚ) := by exact_mod_cast hlen
  have hcount : decls.countP (isUnderval threshold) ≤ decls.length :=
    List.countP_le_length _
  have hcountq : ((decls.countP (isUnderval threshold) : ℚ)) ≤ (decls.length : ℚ) := by
    exact_mod_cast hcount
  refine ⟨?_, hcount, ?_, ?_⟩
  · intro d
    simp [isUnderval, and_comm]
  · apply roundTo_nonneg
    positivity
  · have hle : (decls.countP (isUnderval threshold) : ℚ) * 100 / decls.length ≤ 100 := by
      rw [div_le_iff₀ hlenq]
      nlinarith
    have h1 : ((decls.countP (isUnderval threshold) : ℚ) * 100 / decls.length) * 10 ^ 2
        ≤ ((10000 : ℤ) : ℚ) := by
      push_cast
      nlinarith
    have := roundTo_le_bound 2 _ 10000 h1
    calc (calc_undervaluation_stats threshold decls).underval_rate
        ≤ ((10000 : ℤ) : ℚ) / 10 ^ 2 := this
      _ = 100 := by norm_num

/-- Witness for C6 at a concrete one-element period group. -/
theorem underval_stats_invariant_witness :
    ([(⟨"01", "02", 1, 2, 10, 20⟩ : Declaration)] ≠ ([] : List Declaration)) ∧
    (calc_undervaluation_stats (13 / 10) [⟨"01", "02", 1, 2, 10, 20⟩]).underval_count ≤
      (calc_undervaluation_stats (13 / 10) [⟨"01", "02", 1, 2, 10, 20⟩]).total_count :=
  ⟨List.cons_ne_nil _ _, (underval_stats_invariant (13 / 10) [⟨"01", "02", 1, 2, 10, 20⟩]
    (List.cons_ne_nil _ _)).2.1⟩

/-- C1: for every HS4-by-country group with positive total count, the
anomaly-detector variant of the composite risk score equals
`round1((underval_count/total_count*100)*3 + (hs_change_count/total_count*100)*2)`,
the KPI variant additionally adds (inside the rounding) a volume bonus
that is always one of 10, 5 or 1 according to the total-value tiers, and
the concrete group 100/20/10 without bonus scores 80.0. -/
theorem risk_score_formula (threshold : ℚ) (decls : List Declaration)
    (hne : 0 < decls.length) :
    risk_score_anomaly (mkRiskGroup threshold decls) =
      round1 ((((mkRiskGroup threshold decls).underval_count : ℚ) /
          (mkRiskGroup threshold decls).total_count * 100) * 3 +
        (((mkRiskGroup threshold decls).hs_change_count : ℚ) /
          (mkRiskGroup threshold decls).total_count * 100) * 2) ∧
    risk_score_kpi (mkRiskGroup threshold decls) =
      round1 ((((mkRiskGroup threshold decls).underval_count : ℚ) /
          (mkRiskGroup threshold decls).total_count * 100) * 3 +
        (((mkRiskGroup threshold decls).hs_change_count : ℚ) /
          (mkRiskGroup threshold decls).total_count * 100) * 2 +
        volumeBonus (mkRiskGroup threshold decls).total_value) ∧
    (volumeBonus (mkRiskGroup threshold decls).total_value = 10 ∨
     volumeBonus (mkRiskGroup threshold decls).total_value = 5 ∨
     volumeBonus (mkRiskGroup threshold decls).total_value = 1) ∧
    ((mkRiskGroup threshold decls).total_value > 100000000 →
      volumeBonus (mkRiskGroup threshold decls).total_value = 10) ∧
    ((mkRiskGroup threshold decls).total_value ≤ 100000000 →
      (mkRiskGroup threshold decls).total_value > 10000000 →
      volumeBonus (mkRiskGroup threshold decls).total_value = 5) ∧
    ((mkRiskGroup threshold decls).total_value ≤ 10000000 →
      volumeBonus (mkRiskGroup threshold decls).total_value = 1) ∧
    risk_score_anomaly ⟨100, 20, 10, 0⟩ = 80 := by
  refine ⟨?_, ?_, ?_, ?_, ?_, ?_, ?_⟩
  · unfold risk_score_anomaly
    congr 1
    ring
  · unfold risk_score_kpi
    congr 1
    ring
  · unfold volumeBonus
    split_ifs <;> simp
  · intro h; unfold volumeBonus; rw [if_pos h]
  · intro h1 h2; unfold volumeBonus
    rw [if_neg (by linarith), if_pos h2]
  · intro h; unfold volumeBonus
    rw [if_neg (by linarith), if_neg (by linarith)]
  · unfold risk_score_anomaly
    have : ((20 : ℚ) * 3 / 100 * 100 + (10 : ℚ) * 2 / 100 * 100) = 80 := by norm_num
    rw [show ((⟨100, 20, 10, 0⟩ : RiskGroup).underval_count : ℚ) = 20 from rfl]
    rw [show ((⟨100, 20, 10, 0⟩ : RiskGroup).hs_change_count : ℚ) = 10 from rfl]
    rw [show ((⟨100, 20, 10, 0⟩ : RiskGroup).total_count : ℚ) = 100 from rfl]
    rw [this]
    exact roundTo_eq_self 1 80 800 (by norm_num)

/-- Witness for C1 at a concrete one-declaration group. -/
theorem risk_score_formula_witness :
    0 < [(⟨"01", "02", 1, 2, 10, 20⟩ : Declaration)].length ∧
    risk_score_anomaly ⟨100, 20, 10, 0⟩ = 80 :=
  ⟨by decide, (risk_score_formula (13 / 10) [⟨"01", "02", 1, 2, 10, 20⟩]
    (by decide)).2.2.2.2.2.2⟩

/-- Counterexample to C9: at risk score exactly 80 (reachable, e.g. from a
group of 100 declarations with 20 undervalued and 10 HS-changed) the code
grades `MEDIUM` because `pd.cut` bins are right-closed, while the claim
demands `HIGH` for every score ≥ 80. -/
theorem riskGrade_claim_counterexample :
    risk_score_anomaly ⟨100, 20, 10, 0⟩ = 80 ∧
    riskGrade 80 = some "MEDIUM" ∧
    riskGradeClaim 80 = "HIGH" ∧
    riskGrade 80 ≠ some (riskGradeClaim 80) := by
  refine ⟨?_, by decide, by decide, by decide⟩
  unfold risk_score_anomaly
  rw [show ((⟨100, 20, 10, 0⟩ : RiskGroup).underval_count : ℚ) = 20 from rfl]
  rw [show ((⟨100, 20, 10, 0⟩ : RiskGroup).hs_change_count : ℚ) = 10 from rfl]
  rw [show ((⟨100, 20, 10, 0⟩ : RiskGroup).total_count : ℚ) = 100 from rfl]
  rw [show ((20 : ℚ) * 3 / 100 * 100 + (10 : ℚ) * 2 / 100 * 100) = 80 by norm_num]
  exact roundTo_eq_self 1 80 800 (by norm_num)

/-- C9 as amended: the `pd.cut` bins are right-closed, so the grade is
`NORMAL` for scores ≤ 30, `LOW` on (30, 50], `MEDIUM` on (50, 80] and
`HIGH` above 80. -/
theorem riskGrade_bands (s : ℚ) :
    (s ≤ 30 → riskGrade s = some "NORMAL") ∧
    (30 < s → s ≤ 50 → riskGrade s = some "LOW") ∧
    (50 < s → s ≤ 80 → riskGrade s = some "MEDIUM") ∧
    (80 < s → riskGrade s = some "HIGH") := by
  have hdef : riskGrade s =
      (if s ≤ 30 then some "NORMAL"
       else if s ≤ 50 then some "LOW"
       else if s ≤ 80 then some "MEDIUM"
       else some "HIGH") := rfl
  rw [hdef]
  refine ⟨fun h1 => ?_, fun h1 h2 => ?_, fun h1 h2 => ?_, fun h1 => ?_⟩ <;>
    split_ifs <;> first | rfl | (exfalso; linarith)

/-- Witness for the amended C9 at the boundary score 80. -/
theorem riskGrade_bands_witness :
    (50 : ℚ) < 80 ∧ (80 : ℚ) ≤ 80 ∧ riskGrade 80 = some "MEDIUM" :=
  ⟨by norm_num, by norm_num,
    (riskGrade_bands 80).2.2.1 (by norm_num) (by norm_num)⟩

theorem zip_tail_get {α : Type} (l : List α) :
    ∀ i : ℕ, (l.zip l.tail)[i]? =
      (l[i]?).bind fun p => (l[i + 1]?).map fun c => (p, c) := by
  induction l with
  | nil => intro i; simp
  | cons a l ih =>
    intro i
    cases l with
    | nil => cases i <;> simp
    | cons b t =>
      cases i with
      | zero => simp
      | succ j => simpa using ih j

/-- C2: `calc_yoy_growth` re-sorts the period rows ascending by period
(whatever order the query delivered), excludes the first row of the sorted
series, and emits for every other row the row together with
`growth_pct = round1((current total_tax - previous total_tax) / previous
total_tax * 100)`; on totals `[100, 110, 99]` (ascending) the growth series
is `[+10.0, -10.0]`. -/
theorem yoy_growth_spec (rows : List RevenueRow)
    (htax : ∀ r ∈ rows, 0 < r.total_tax) :
    (sortPeriod rows).Perm rows ∧
    List.Sorted periodLe (sortPeriod rows) ∧
    (calc_yoy_growth rows).map Prod.fst = (sortPeriod rows).tail ∧
    (calc_yoy_growth rows).length = (sortPeriod rows).length - 1 ∧
    (∀ i : ℕ, (calc_yoy_growth rows)[i]? =
      ((sortPeriod rows)[i]?).bind fun p => ((sortPeriod rows)[i + 1]?).map fun c =>
        (c, round1 ((c.total_tax - p.total_tax) / p.total_tax * 100),
            round1 (((c.declaration_count : ℚ) - (p.declaration_count : ℚ)) /
              (p.declaration_count : ℚ) * 100))) ∧
    (calc_yoy_growth [⟨2025, 7, 99⟩, ⟨2024, 5, 110⟩, ⟨2023, 3, 100⟩]).map
      (fun x => x.2.1) = [10, -10] := by
  refine ⟨List.perm_insertionSort periodLe rows,
    List.sorted_insertionSort periodLe rows, ?_, ?_, ?_, ?_⟩
  · show (((sortPeriod rows).zip (sortPeriod rows).tail).map _).map Prod.fst =
      (sortPeriod rows).tail
    rw [List.map_map]
    show ((sortPeriod rows).zip (sortPeriod rows).tail).map Prod.snd =
      (sortPeriod rows).tail
    apply List.map_snd_zip
    rw [List.length_tail]
    exact Nat.sub_le _ _
  · show (((sortPeriod rows).zip (sortPeriod rows).tail).map _).length =
      (sortPeriod rows).length - 1
    rw [List.length_map, List.length_zip, List.length_tail]
    omega
  · intro i
    show (((sortPeriod rows).zip (sortPeriod rows).tail).map _)[i]? = _
    rw [List.getElem?_map, zip_tail_get]
    cases h1 : (sortPeriod rows)[i]? with
    | none => simp
    | some p =>
      cases h2 : (sortPeriod rows)[i + 1]? with
      | none => simp
      | some c => simp
  · have hsort : sortPeriod [⟨2025, 7, 99⟩, ⟨2024, 5, 110⟩, ⟨2023, 3, 100⟩] =
        [⟨2023, 3, 100⟩, ⟨2024, 5, 110⟩, ⟨2025, 7, 99⟩] := rfl
    show (((sortPeriod _).zip (sortPeriod _).tail).map _).map _ = _
    rw [hsort]
    show [(round1 ((110 - 100) / 100 * 100) : ℚ),
          round1 ((99 - 110) / 110 * 100)] = [10, -10]
    norm_num [round1, roundTo]

/-- Witness for C2 at the three concrete periods with totals 100, 110, 99. -/
theorem yoy_growth_spec_witness :
    (∀ r ∈ [(⟨2025, 7, 99⟩ : RevenueRow), ⟨2024, 5, 110⟩, ⟨2023, 3, 100⟩],
      0 < r.total_tax) ∧
    (calc_yoy_growth [⟨2025, 7, 99⟩, ⟨2024, 5, 110⟩, ⟨2023, 3, 100⟩]).map
      (fun x => x.2.1) = [10, -10] :=
  ⟨by intro r hr; fin_cases hr <;> norm_num,
    (yoy_growth_spec [⟨2025, 7, 99⟩, ⟨2024, 5, 110⟩, ⟨2023, 3, 100⟩]
      (by intro r hr; fin_cases hr <;> norm_num)).2.2.2.2.2⟩

/-- C3: the concentration index is `Σ (value/total)² × 10000` when the
grand total is positive and `0` when the grand total is zero; the label is
`Low (Competitive)` below 1000, `Moderate` on [1000, 1800), and
`High (Concentrated)` from 1800 upward; four equal categories score
`hhi = 2500` and are labelled `High (Concentrated)`. -/
theorem hhi_formula (cats : List Cat) :
    (0 < grandTotal cats →
      hhiRaw cats =
        ((cats.map (fun c => (c.value / grandTotal cats) ^ 2)).sum) * 10000) ∧
    (grandTotal cats = 0 → hhiRaw cats = 0) ∧
    (hhiRaw cats < 1000 →
      concentrationLevel (hhiRaw cats) = "Low (Competitive)") ∧
    (1000 ≤ hhiRaw cats → hhiRaw cats < 1800 →
      concentrationLevel (hhiRaw cats) = "Moderate") ∧
    (1800 ≤ hhiRaw cats →
      concentrationLevel (hhiRaw cats) = "High (Concentrated)") ∧
    hhiRaw [⟨"A", 10⟩, ⟨"B", 10⟩, ⟨"C", 10⟩, ⟨"D", 10⟩] = 2500 ∧
    concentrationLevel (hhiRaw [⟨"A", 10⟩, ⟨"B", 10⟩, ⟨"C", 10⟩, ⟨"D", 10⟩]) =
      "High (Concentrated)" := by
  have hfour : hhiRaw [⟨"A", 10⟩, ⟨"B", 10⟩, ⟨"C", 10⟩, ⟨"D", 10⟩] = 2500 := by
    norm_num [hhiRaw, grandTotal]
  refine ⟨?_, ?_, ?_, ?_, ?_, hfour, ?_⟩
  · intro h; rw [hhiRaw, if_pos h]
  · intro h; rw [hhiRaw, if_neg (by rw [h]; norm_num)]
  · intro h; rw [concentrationLevel, if_pos h]
  · intro h1 h2; rw [concentrationLevel, if_neg (by linarith), if_pos h2]
  · intro h; rw [concentrationLevel, if_neg (by linarith), if_neg (by linarith)]
  · rw [hfour, concentrationLevel]
    norm_num

/-- Witness for C3's banding hypotheses at the four-equal-categories
input, whose HHI of 2500 falls in the `High (Concentrated)` band. -/
theorem hhi_formula_witness :
    (1800 : ℚ) ≤ hhiRaw [⟨"A", 10⟩, ⟨"B", 10⟩, ⟨"C", 10⟩, ⟨"D", 10⟩] ∧
    concentrationLevel (hhiRaw [⟨"A", 10⟩, ⟨"B", 10⟩, ⟨"C", 10⟩, ⟨"D", 10⟩]) =
      "High (Concentrated)" :=
  ⟨by norm_num [hhiRaw, grandTotal],
    (hhi_formula [⟨"A", 10⟩, ⟨"B", 10⟩, ⟨"C", 10⟩, ⟨"D", 10⟩]).2.2.2.2.1
      (by norm_num [hhiRaw, grandTotal])⟩

/-- C7: when all category values are nonnegative and the grand total is
positive, the shares sum to exactly 1 (stronger than the claimed
"1 ± epsilon"), and both the raw HHI and its rounded value lie in
[0, 10000]. -/
theorem hhi_bounds (cats : List Cat) (h0 : ∀ c ∈ cats, 0 ≤ c.value)
    (ht : 0 < grandTotal cats) :
    (cats.map (fun c => c.value / grandTotal cats)).sum = 1 ∧
    0 ≤ hhiRaw cats ∧ hhiRaw cats ≤ 10000 ∧
    0 ≤ roundTo 0 (hhiRaw cats) ∧ roundTo 0 (hhiRaw cats) ≤ 10000 := by
  have htne : grandTotal cats ≠ 0 := ne_of_gt ht
  have hsum : (cats.map (fun c => c.value / grandTotal cats)).sum = 1 := by
    simp only [div_eq_mul_inv]
    rw [List.sum_map_mul_right]
    show grandTotal cats * (grandTotal cats)⁻¹ = 1
    exact mul_inv_cancel₀ htne
  have hshare01 : ∀ c ∈ cats,
      0 ≤ c.value / grandTotal cats ∧ c.value / grandTotal cats ≤ 1 := by
    intro c hc
    refine ⟨div_nonneg (h0 c hc) (le_of_lt ht), ?_⟩
    rw [div_le_one ht]
    refine List.single_le_sum ?_ _ (List.mem_map.mpr ⟨c, hc, rfl⟩)
    intro x hx
    obtain ⟨c', hc', rfl⟩ := List.mem_map.mp hx
    exact h0 c' hc'
  have hsq_nonneg : 0 ≤ (cats.map (fun c => (c.value / grandTotal cats) ^ 2)).sum := by
    apply List.sum_nonneg
    intro x hx
    obtain ⟨c, hc, rfl⟩ := List.mem_map.mp hx
    positivity
  have hsq_le : (cats.map (fun c => (c.value / grandTotal cats) ^ 2)).sum ≤ 1 := by
    calc (cats.map (fun c => (c.value / grandTotal cats) ^ 2)).sum
        ≤ (cats.map (fun c => c.value / grandTotal cats)).sum := by
          apply List.sum_le_sum
          intro c hc
          obtain ⟨h1, h2⟩ := hshare01 c hc
          rw [sq]
          exact mul_le_of_le_one_left h1 h2
      _ = 1 := hsum
  have heq : hhiRaw cats =
      ((cats.map (fun c => (c.value / grandTotal cats) ^ 2)).sum) * 10000 := by
    rw [hhiRaw, if_pos ht]
  have hlo : 0 ≤ hhiRaw cats := by rw [heq]; positivity
  have hhi10k : hhiRaw cats ≤ 10000 := by rw [heq]; nlinarith
  refine ⟨hsum, hlo, hhi10k, roundTo_nonneg 0 _ hlo, ?_⟩
  have hb := roundTo_le_bound 0 (hhiRaw cats) 10000 (by norm_num; exact hhi10k)
  calc roundTo 0 (hhiRaw cats) ≤ ((10000 : ℤ) : ℚ) / 10 ^ 0 := hb
    _ = 10000 := by norm_num

/-- Witness for C7 at a single category holding the whole total. -/
theorem hhi_bounds_witness :
    (∀ c ∈ [(⟨"A", 10⟩ : Cat)], 0 ≤ c.value) ∧
    (0 : ℚ) < grandTotal [⟨"A", 10⟩] ∧
    ([(⟨"A", 10⟩ : Cat)].map (fun c => c.value / grandTotal [⟨"A", 10⟩])).sum = 1 :=
  ⟨by intro c hc; fin_cases hc <;> norm_num,
   by norm_num [grandTotal],
   (hhi_bounds [⟨"A", 10⟩] (by intro c hc; fin_cases hc <;> norm_num)
     (by norm_num [grandTotal])).1⟩

theorem round2_hundred (q : ℚ) : round2 q * 100 = ((Int.floor (q * 10 ^ 2 + 1 / 2) : ℤ) : ℚ) := by
  have h := roundTo_mul_pow 2 q
  rw [round2]
  calc roundTo 2 q * 100 = roundTo 2 q * 10 ^ 2 := by norm_num
    _ = ((Int.floor (q * 10 ^ 2 + 1 / 2) : ℤ) : ℚ) := h

theorem paretoRows_eq_spec (total : ℚ) :
    ∀ (cs : List Cat) (acc : ℚ) (rank : ℕ) (n : ℤ), acc * 100 = (n : ℚ) →
      paretoRows total acc rank cs = paretoRowsSpec total acc rank cs := by
  intro cs
  induction cs with
  | nil => intro acc rank n hn; rfl
  | cons c cs ih =>
    intro acc rank n hn
    have hm := round2_hundred (c.value / total * 100)
    have hcum : round2 (acc + round2 (c.value / total * 100)) =
        acc + round2 (c.value / total * 100) := by
      apply roundTo_eq_self 2 _
        (n + Int.floor (c.value / total * 100 * 10 ^ 2 + 1 / 2))
      push_cast
      have hexp : (acc + round2 (c.value / total * 100)) * 10 ^ 2 =
          acc * 100 + round2 (c.value / total * 100) * 100 := by ring
      rw [hexp, hn, hm]
    rw [paretoRows, paretoRowsSpec, hcum]
    congr 1
    exact ih _ _ (n + Int.floor (c.value / total * 100 * 10 ^ 2 + 1 / 2))
      (by push_cast; rw [add_mul, hn, hm])

theorem paretoRowsSpec_ranks (total : ℚ) :
    ∀ (cs : List Cat) (acc : ℚ) (rank : ℕ),
      (paretoRowsSpec total acc rank cs).map (·.rank) =
        List.range' rank cs.length := by
  intro cs
  induction cs with
  | nil => intro acc rank; rfl
  | cons c cs ih =>
    intro acc rank
    rw [paretoRowsSpec, List.map_cons, List.length_cons, List.range'_succ rank cs.length 1]
    rw [ih]

theorem paretoRowsSpec_shares (total : ℚ) :
    ∀ (cs : List Cat) (acc : ℚ) (rank : ℕ),
      (paretoRowsSpec total acc rank cs).map (·.share_pct) =
        cs.map (fun c => some (round2 (c.value / total * 100))) := by
  intro cs
  induction cs with
  | nil => intro acc rank; rfl
  | cons c cs ih =>
    intro acc rank
    rw [paretoRowsSpec, List.map_cons, List.map_cons, ih]

theorem paretoRowsSpec_cums (total : ℚ) :
    ∀ (cs : List Cat) (acc : ℚ) (rank : ℕ),
      (paretoRowsSpec total acc rank cs).map (·.cumulative_pct) =
        (runningSums acc (cs.map (fun c => round2 (c.value / total * 100)))).map some := by
  intro cs
  induction cs with
  | nil => intro acc rank; rfl
  | cons c cs ih =>
    intro acc rank
    rw [paretoRowsSpec, List.map_cons, List.map_cons, runningSums, List.map_cons, ih]

theorem paretoRowsSpec_zones (total : ℚ) :
    ∀ (cs : List Cat) (acc : ℚ) (rank : ℕ),
      ∀ r ∈ paretoRowsSpec total acc rank cs,
        ∃ cum, r.cumulative_pct = some cum ∧ r.pareto_zone = zoneOf cum := by
  intro cs
  induction cs with
  | nil => intro acc rank r hr; simp [paretoRowsSpec] at hr
  | cons c cs ih =>
    intro acc rank r hr
    rw [paretoRowsSpec, List.mem_cons] at hr
    rcases hr with hr | hr
    · exact ⟨acc + round2 (c.value / total * 100), by rw [hr], by rw [hr]⟩
    · exact ih _ _ r hr

/-- C4: for a positive grand total, Pareto zoning sorts the categories
descending by value (a sorted permutation of the input), equals the
claim-side computation in which the cumulative column is the plain running
sum of the already-rounded per-row shares (rounding before accumulation —
the code's elementwise re-round of the cumulative sum is the identity),
assigns 1-based ranks in sorted order, emits
`share_pct = round2(value/total*100)`, the cumulative column is the running
sum of those shares, every zone is the band of its row's cumulative value,
and the bands are `A` ≤ 80 < `B` ≤ 95 < `C`. -/
theorem pareto_spec (cats : List Cat) (ht : 0 < grandTotal cats) :
    (sortByValueDesc cats).Perm cats ∧
    List.Sorted valueGe (sortByValueDesc cats) ∧
    calc_pareto_analysis cats =
      paretoRowsSpec (grandTotal cats) 0 1 (sortByValueDesc cats) ∧
    (calc_pareto_analysis cats).map (·.rank) =
      List.range' 1 (sortByValueDesc cats).length ∧
    (calc_pareto_analysis cats).map (·.share_pct) =
      (sortByValueDesc cats).map
        (fun c => some (round2 (c.value / grandTotal cats * 100))) ∧
    (calc_pareto_analysis cats).map (·.cumulative_pct) =
      (runningSums 0 ((sortByValueDesc cats).map
        (fun c => round2 (c.value / grandTotal cats * 100)))).map some ∧
    (∀ r ∈ calc_pareto_analysis cats, ∃ cum,
      r.cumulative_pct = some cum ∧ r.pareto_zone = zoneOf cum) ∧
    (∀ cum : ℚ, (cum ≤ 80 → zoneOf cum = "A (Top 80%)") ∧
      (80 < cum → cum ≤ 95 → zoneOf cum = "B (80-95%)") ∧
      (95 < cum → zoneOf cum = "C (Bottom 5%)")) := by
  have hperm : (sortByValueDesc cats).Perm cats :=
    List.perm_insertionSort valueGe cats
  have htot : grandTotal (sortByValueDesc cats) = grandTotal cats := by
    show ((sortByValueDesc cats).map (·.value)).sum = (cats.map (·.value)).sum
    exact (hperm.map (·.value)).sum_eq
  have hne : ¬ grandTotal (sortByValueDesc cats) = 0 := by
    rw [htot]; exact ne_of_gt ht
  have hcalc : calc_pareto_analysis cats =
      paretoRows (grandTotal cats) 0 1 (sortByValueDesc cats) := by
    rw [calc_pareto_analysis, if_neg hne, htot]
  have hspec : calc_pareto_analysis cats =
      paretoRowsSpec (grandTotal cats) 0 1 (sortByValueDesc cats) := by
    rw [hcalc]
    exact paretoRows_eq_spec (grandTotal cats) (sortByValueDesc cats) 0 1 0
      (by norm_num)
  refine ⟨hperm, List.sorted_insertionSort valueGe cats, hspec, ?_, ?_, ?_, ?_, ?_⟩
  · rw [hspec]
    exact paretoRowsSpec_ranks (grandTotal cats) (sortByValueDesc cats) 0 1
  · rw [hspec]
    exact paretoRowsSpec_shares (grandTotal cats) (sortByValueDesc cats) 0 1
  · rw [hspec]
    exact paretoRowsSpec_cums (grandTotal cats) (sortByValueDesc cats) 0 1
  · rw [hspec]
    exact paretoRowsSpec_zones (grandTotal cats) (sortByValueDesc cats) 0 1
  · intro cum
    refine ⟨fun h1 => ?_, fun h1 h2 => ?_, fun h1 => ?_⟩
    · rw [zoneOf, if_pos h1]
    · rw [zoneOf, if_neg (by linarith), if_pos h2]
    · rw [zoneOf, if_neg (by linarith), if_neg (by linarith)]

/-- Witness for C4 at a single category holding the whole total. -/
theorem pareto_spec_witness :
    (0 : ℚ) < grandTotal [⟨"A", 10⟩] ∧
    (calc_pareto_analysis [⟨"A", 10⟩]).map (·.rank) =
      List.range' 1 (sortByValueDesc [⟨"A", 10⟩]).length :=
  ⟨by norm_num [grandTotal],
    (pareto_spec [⟨"A", 10⟩] (by norm_num [grandTotal])).2.2.2.1⟩

/-- C8 evaluated on the code: with zero rows the grand total is 0, the
internal HHI guard yields `hhi = 0`, but `calc_hhi_by_dimension` still
fails with a `KeyError` because the `share` column read by `top_5_share`
was never created; `calc_pareto_analysis` is total on zero rows (empty
output) yet on a nonzero row set with zero grand total it produces
undefined (`NaN`) share and cumulative columns instead of guarding the
division. -/
theorem hhi_pareto_zero_total :
    calc_hhi_by_dimension ([] : List Cat) = Except.error "KeyError: share" ∧
    hhiRaw ([] : List Cat) = 0 ∧
    calc_pareto_analysis ([] : List Cat) = [] ∧
    grandTotal [(⟨"X", 0⟩ : Cat)] = 0 ∧
    (calc_pareto_analysis [⟨"X", 0⟩]).map (·.share_pct) = [none] ∧
    (calc_pareto_analysis [⟨"X", 0⟩]).map (·.cumulative_pct) = [none] := by
  have hX : sortByValueDesc [(⟨"X", 0⟩ : Cat)] = [⟨"X", 0⟩] := rfl
  have hXtot : grandTotal [(⟨"X", 0⟩ : Cat)] = 0 := by norm_num [grandTotal]
  refine ⟨?_, ?_, ?_, hXtot, ?_, ?_⟩
  · rw [calc_hhi_by_dimension, if_neg (by norm_num [grandTotal])]
  · rw [hhiRaw, if_neg (by norm_num [grandTotal])]
  · rfl
  · rw [calc_pareto_analysis, hX, if_pos hXtot]
    rfl
  · rw [calc_pareto_analysis, hX, if_pos hXtot]
    rfl

/-- Witness for C5 at the spec's concrete example (actual 55, benchmark 30,
target 50, direction `higher`). -/
theorem getStatus_spec_witness :
    getStatus 55 30 50 "higher" = "Excellent" :=
  (getStatus_spec 55 30 50).2.2.2.2.2.2.1
